import Mathlib

/-!
Verification of the apartment-agent pipeline (src/main.py) against its
natural-language specification.

The Python program is shallowly embedded: pure text processing (regex scans,
normalization, field extraction, filtering, link harvesting) is translated to
executable Lean functions over `List Char` / `String`; the effectful `main`
run is modelled as a pure function from an explicit `World` (environment
variables, file contents, HTTP responses) to the list of performed effects
plus an optional uncaught Python exception.

Modelling conventions, fixed once here:
* Python `str` is `String`; scanning regexes are hand-compiled to left-to-right
  scanners over `String.data` with the same leftmost-match, greedy semantics
  as `re.search` for the concrete patterns used by the code (for each pattern
  the greedy/backtracking behaviour is spelled out at its definition).
* `\d`, `[0-9]` and `\s` are modelled as ASCII digits and ASCII whitespace;
  every string appearing in the code, spec and claims only exercises ASCII
  digits/whitespace (the surrounding Hebrew letters are neither).
* Python `float` is modelled as `Rat`; every numeric literal the claims
  exercise (2.5, 1.5, 3, ...) is exactly representable in both.
* A Python `set` of strings is modelled as its membership: a duplicate-free
  `List String` built by insertion order (`pySetAdd`); the only observations
  the code makes of a set are membership tests and `sorted(list(s))`, both of
  which depend only on membership.
* HTML parsing by BeautifulSoup is modelled post-parse: a `Doc` carries the
  list of `href` attributes of its anchor elements (`find_all("a", href=True)`)
  together with the document's remaining raw text, which the code never reads.
-/

namespace Yad2

/-! ## Basic character/string utilities (models of Python primitives) -/

/-- ASCII whitespace, the model of `\s` in the code's regexes and of
`str.strip` (the texts involved contain no non-ASCII whitespace). -/
def isPyWs (c : Char) : Bool :=
  c == ' ' || c == '\t' || c == '\n' || c == '\r' || c == '\x0b' || c == '\x0c'

/-- Does `pat` occur as a prefix of `l`?  Model of anchored literal matching. -/
def subAt : List Char → List Char → Bool
  | [], _ => true
  | _ :: _, [] => false
  | p :: ps, c :: cs => p == c && subAt ps cs

/-- Does `pat` occur as a contiguous segment of `l`?  Model of Python's
substring test `pat in s`. -/
def hasSub (pat : List Char) : List Char → Bool
  | [] => subAt pat []
  | c :: rest => subAt pat (c :: rest) || hasSub pat rest

/-- Python `pat in s` on strings. -/
def strContains (s pat : String) : Bool := hasSub pat.data s.data

/-- Consume the literal `pat` from the front of `l`, returning the rest. -/
def dropLit : List Char → List Char → Option (List Char)
  | [], l => some l
  | _ :: _, [] => none
  | p :: ps, c :: cs => if p == c then dropLit ps cs else none

/-- Value of a run of ASCII digit characters (most significant first). -/
def digitsToNat (l : List Char) : Nat :=
  l.foldl (fun n c => 10 * n + (c.toNat - '0'.toNat)) 0

/-- Collapse every maximal whitespace run of `l` to a single space (the model
of `re.sub(r"\s+", " ", s)`). -/
def squeezeWs : List Char → List Char
  | [] => []
  | c :: rest =>
    if isPyWs c then
      match rest with
      | d :: _ => if isPyWs d then squeezeWs rest else ' ' :: squeezeWs rest
      | [] => [' ']
    else c :: squeezeWs rest

/-- Remove leading and trailing whitespace (Python `str.strip`). -/
def stripWs (l : List Char) : List Char :=
  ((l.dropWhile isPyWs).reverse.dropWhile isPyWs).reverse

/-- `normalize` from main.py: `re.sub(r"\s+", " ", s).strip()`. -/
def normalize (s : String) : String := String.mk (stripWs (squeezeWs s.data))

/-- Lexicographic code-point order on char lists: the order Python's `sorted`
uses on strings. -/
def charListLt : List Char → List Char → Bool
  | [], [] => false
  | [], _ :: _ => true
  | _ :: _, [] => false
  | a :: as, b :: bs => if a < b then true else if b < a then false else charListLt as bs

/-- Python `a < b` on strings (code-point lexicographic). -/
def pyStrLt (a b : String) : Bool := charListLt a.data b.data

def insertSorted (x : String) : List String → List String
  | [] => [x]
  | y :: ys => if pyStrLt y x then y :: insertSorted x ys else x :: y :: ys

/-- Python `sorted(list(s))` for a list of strings. -/
def sortStrings (l : List String) : List String := l.foldr insertSorted []

/-- Python set of strings, represented by its members in insertion order. -/
abbrev PySet := List String

/-- `s.add(x)`: no-op when the member is already present. -/
def pySetAdd (s : PySet) (x : String) : PySet :=
  if s.contains x then s else s ++ [x]

/-- `set(l)` for a list of strings. -/
def pySetOf (l : List String) : PySet := l.foldl pySetAdd []

/-- Python truthiness of `os.environ.get(...)`: `None` and `""` are falsy. -/
def pyFalsy (o : Option String) : Bool := o.getD "" == ""

/-- Python `"\n".join(lines)`. -/
def joinLines : List String → String
  | [] => ""
  | [x] => x
  | x :: y :: xs => x ++ "\n" ++ joinLines (y :: xs)

/-! ## Field Extractor (extract_rooms, extract_floor, price pattern) -/

/-- The room-unit literal of the rooms regex. -/
def roomWord : List Char := "חדר".data

/-- `lit` preceded by `\s*`: skip whitespace greedily, then match the
literal.  (Backtracking to a shorter whitespace run can never help, because a
whitespace char can never begin the Hebrew literal.) -/
def litAfterWs (lit : List Char) (l : List Char) : Bool :=
  subAt lit (l.dropWhile isPyWs)

/-- Anchored match of `(\d+(?:\.\d+)?)\s*חדר` at the head of `l`, returning
the numeral group.  `\d+` is maximal-munch (a shorter digit run can never be
followed by `.`, whitespace or `ח`, so greedy = exact); the optional
fractional part is tried first and dropped on failure, exactly regex
backtracking. -/
def roomsAt (l : List Char) : Option (List Char) :=
  let ds := l.takeWhile Char.isDigit
  if ds.isEmpty then none
  else
    let rest := l.drop ds.length
    let withFrac : Option (List Char) :=
      match rest with
      | '.' :: r2 =>
        let fs := r2.takeWhile Char.isDigit
        if fs.isEmpty then none
        else if litAfterWs roomWord (r2.drop fs.length) then some (ds ++ '.' :: fs) else none
      | _ => none
    match withFrac with
    | some g => some g
    | none => if litAfterWs roomWord rest then some ds else none

/-- Leftmost match of the rooms pattern: `re.search` scans start positions
left to right. -/
def roomsSearch : List Char → Option (List Char)
  | [] => none
  | c :: rest =>
    match roomsAt (c :: rest) with
    | some g => some g
    | none => roomsSearch rest

/-- Python `float()` of a matched `\d+(?:\.\d+)?` group. -/
def parseFloat (l : List Char) : Rat :=
  let ip := l.takeWhile (fun c => c != '.')
  let rest := l.drop ip.length
  match rest with
  | '.' :: fs => (digitsToNat ip : Rat) + (digitsToNat fs : Rat) / (10 : Rat) ^ fs.length
  | _ => (digitsToNat ip : Rat)

/-- `extract_rooms` from main.py: `re.search(r"(\d+(?:\.\d+)?)\s*חדר", text)`,
`None` on empty text or no match, else `float` of the group. -/
def extract_rooms (text : String) : Option Rat :=
  if text == "" then none
  else (roomsSearch text.data).map parseFloat

/-- The floor-label literal of the floor regex. -/
def floorWord : List Char := "קומה".data

/-- Anchored match of `קומה\s*([0-9]+)` at the head of `l`, returning the
digit group (maximal munch; a digit can never extend the whitespace run). -/
def floorAt (l : List Char) : Option (List Char) :=
  match dropLit floorWord l with
  | some r =>
    let r2 := r.dropWhile isPyWs
    let ds := r2.takeWhile Char.isDigit
    if ds.isEmpty then none else some ds
  | none => none

/-- Leftmost match of the floor pattern. -/
def floorSearch : List Char → Option (List Char)
  | [] => none
  | c :: rest =>
    match floorAt (c :: rest) with
    | some g => some g
    | none => floorSearch rest

/-- `extract_floor` from main.py: empty text yields `None`; the literal
"קרקע" (ground floor) yields `0`; otherwise the labeled floor number. -/
def extract_floor (text : String) : Option Int :=
  if text == "" then none
  else if strContains text "קרקע" then some 0
  else (floorSearch text.data).map (fun ds => (digitsToNat ds : Int))

/-- Anchored match of `([\d,]+)\s*₪` at the head of `l`, returning the
`[\d,]+` group (maximal munch: a digit/comma can never continue into `\s*₪`). -/
def priceAt (l : List Char) : Option (List Char) :=
  let ds := l.takeWhile (fun c => c.isDigit || c == ',')
  if ds.isEmpty then none
  else
    match (l.drop ds.length).dropWhile isPyWs with
    | c :: _ => if c == '₪' then some ds else none
    | [] => none

/-- Leftmost match of the shekel price pattern. -/
def priceSearch : List Char → Option (List Char)
  | [] => none
  | c :: rest =>
    match priceAt (c :: rest) with
    | some g => some g
    | none => priceSearch rest

/-- The extracted-fields record returned by `parse_details_from_item_page`
(the function also computes a local `neighborhood` variable, but does not
return it). -/
structure Details where
  price : Option Int
  rooms : Option Rat
  floor : Option Int
  neighborhood_text : String
deriving Repr

/-- `m_price.group(1).replace(",", "")` followed by `int(...)`: the `int`
call raises `ValueError` when the group consists of commas only. -/
def parsePriceGroup (ds : List Char) : Except Unit Int :=
  let stripped := ds.filter (fun c => c != ',')
  if stripped.isEmpty then .error () else .ok (digitsToNat stripped : Int)

/-- `parse_details_from_item_page` from main.py, taking the item page's text
content (the model treats a fetched item page as the text that
`soup.get_text(" ", strip=True)` yields for it).  The only reachable
exception is the all-commas `int("")` corner of the price group. -/
def parse_details_from_item_page (item_text : String) : Except Unit Details :=
  let full_text := normalize item_text
  match priceSearch full_text.data with
  | some ds =>
    match parsePriceGroup ds with
    | .error e => .error e
    | .ok p =>
      .ok { price := some p, rooms := extract_rooms full_text,
            floor := extract_floor full_text, neighborhood_text := full_text }
  | none =>
    .ok { price := none, rooms := extract_rooms full_text,
          floor := extract_floor full_text, neighborhood_text := full_text }

/-! ## Filter Engine (passes_filters) -/

/-- One entry of `cfg["areas"]`.  The configuration dictionary may carry
further keys — in particular the spec's `exclude_keywords` — but
`passes_filters` only ever reads `title` and `neighborhood_keywords`
(`area_cfg.get("neighborhood_keywords")`). -/
structure AreaCfg where
  title : String
  neighborhood_keywords : List String
  exclude_keywords : List String
deriving Repr

/-- The top-level configuration dictionary `cfg` (config.json): the numeric
bounds read by `passes_filters` plus the list of areas. -/
structure Config where
  price_min : Int
  price_max : Int
  rooms_min : Rat
  rooms_max : Rat
  min_floor : Int
  areas : List AreaCfg
deriving Repr

/-- `passes_filters` from main.py: each numeric dimension constrains only a
present field; the neighborhood keyword check runs only when keywords are
configured and the text is non-empty; there is no exclusion-keyword logic. -/
def passes_filters (d : Details) (cfg : Config) (area : AreaCfg) : Bool :=
  if (match d.price with
      | some p => p < cfg.price_min || cfg.price_max < p
      | none => false) then false
  else if (match d.rooms with
      | some r => r < cfg.rooms_min || cfg.rooms_max < r
      | none => false) then false
  else if (match d.floor with
      | some f => decide (f < cfg.min_floor)
      | none => false) then false
  else
    let text := d.neighborhood_text
    let keys := area.neighborhood_keywords
    if !keys.isEmpty then
      if text != "" && !(keys.any (fun k => strContains text k)) then false
      else true
    else true

/-! ## Link Harvester (collect_listing_links) -/

/-- `BASE` from main.py. -/
def BASE : String := "https://www.yad2.co.il"

/-- `SEARCH_URL` from main.py. -/
def SEARCH_URL : String := "https://www.yad2.co.il/realestate/rent?area=1&city=5000&topArea=2"

/-- The listing-item path literal. -/
def itemPathChars : List Char := "/realestate/item/".data

/-- A fetched document, modelled after BeautifulSoup has parsed it:
`anchors` is the list of `href` attributes of its anchor elements
(`soup.find_all("a", href=True)`, in document order), `rawText` the rest of
the document's text, which `collect_listing_links` never reads. -/
structure Doc where
  anchors : List String
  rawText : String

/-- Anchored match of `/realestate/item/(\d+)` at the head of `l`: the
literal, then a maximal nonempty digit run (the capture group). -/
def itemIdAt (l : List Char) : Option (List Char) :=
  match dropLit itemPathChars l with
  | some r =>
    let ds := r.takeWhile Char.isDigit
    if ds.isEmpty then none else some ds
  | none => none

/-- `re.search(r"/realestate/item/(\d+)", href)`: leftmost occurrence of the
item-path pattern, returning the digit group. -/
def itemIdSearch : List Char → Option (List Char)
  | [] => none
  | c :: rest =>
    match itemIdAt (c :: rest) with
    | some g => some g
    | none => itemIdSearch rest

/-- The three bytes CPython's `urlsplit` removes anywhere in a URL
(`_UNSAFE_URL_BYTES_TO_REMOVE`). -/
def urlUnsafeStrip (l : List Char) : List Char :=
  l.filter (fun c => c != '\t' && c != '\r' && c != '\n')

/-- Split at the first occurrence of `sep`: (before, `some` after) when the
separator occurs, (whole, `none`) otherwise. -/
def splitAtFirst (sep : Char) : List Char → List Char × Option (List Char)
  | [] => ([], none)
  | c :: rest =>
    if c == sep then ([], some rest)
    else
      match splitAtFirst sep rest with
      | (pre, post) => (c :: pre, post)

/-- Split on every '/' (Python `path.split('/')`; the result is nonempty). -/
def splitSlash : List Char → List (List Char)
  | [] => [[]]
  | c :: rest =>
    if c == '/' then [] :: splitSlash rest
    else
      match splitSlash rest with
      | s :: ss => (c :: s) :: ss
      | [] => [[c]]

/-- `urljoin`'s segment-resolution loop: ".." pops the stack (popping an
empty stack is a no-op), "." is skipped, every other segment is pushed.
`acc` holds the output in reverse. -/
def dotSegLoop : List (List Char) → List (List Char) → List (List Char)
  | acc, [] => acc.reverse
  | acc, seg :: rest =>
    if seg == ['.', '.'] then dotSegLoop acc.tail rest
    else if seg == ['.'] then dotSegLoop acc rest
    else dotSegLoop (seg :: acc) rest

/-- Python `'/'.join(segments)`. -/
def joinSlash : List (List Char) → List Char
  | [] => []
  | [s] => s
  | s :: t :: rest => s ++ '/' :: joinSlash (t :: rest)

/-- `urllib.parse.urljoin(BASE, href)` for the hrefs that reach it.  Every
processed href starts with the literal "/realestate/item/", so the reference
is nonempty, path-absolute and never scheme- or protocol-relative, and the
result is the base origin plus the resolved reference.  Faithful to CPython
(3.11): tab/CR/LF are removed anywhere in the href (`urlsplit`; the leading
C0-control/space lstrip is a no-op because the href starts with '/'); the
fragment is split off at the first '#', the query at the first '?' before
it, the params at the first ';' inside the last path segment; "." and ".."
path segments are resolved RFC 3986-style ('..' on an empty stack is a
no-op, a trailing "." or ".." leaves a trailing slash); an empty resolved
path becomes "/", a path not starting with '/' regains one (`urlunsplit`);
an empty params/query/fragment is dropped together with its separator. -/
def urljoin_base (href : String) : String :=
  let h := urlUnsafeStrip href.data
  let hash := splitAtFirst '#' h
  let quest := splitAtFirst '?' hash.1
  let segs := splitSlash quest.1
  let semi := splitAtFirst ';' (segs.getLast?.getD [])
  let pathSegs := segs.dropLast ++ [semi.1]
  let resolved :=
    match pathSegs.getLast? with
    | some s =>
      if s == ['.'] || s == ['.', '.'] then dotSegLoop [] pathSegs ++ [[]]
      else dotSegLoop [] pathSegs
    | none => dotSegLoop [] pathSegs
  let joined := joinSlash resolved
  let path2 :=
    if joined.isEmpty then ['/']
    else if joined.headD ' ' == '/' then joined else '/' :: joined
  let url0 := BASE.data ++ path2
  let url1 := match semi.2 with
    | some p => if p.isEmpty then url0 else url0 ++ ';' :: p
    | none => url0
  let url2 := match quest.2 with
    | some q => if q.isEmpty then url1 else url1 ++ '?' :: q
    | none => url1
  let url3 := match hash.2 with
    | some f => if f.isEmpty then url2 else url2 ++ '#' :: f
    | none => url2
  String.mk url3

/-- The per-anchor body of the harvest loop: skip hrefs that do not start
with the item path, skip hrefs where the id regex finds no match, otherwise
yield the (item_id, urljoin(BASE, href)) pair. -/
def qualify (href : String) : Option (String × String) :=
  if subAt itemPathChars href.data then
    match itemIdSearch href.data with
    | some ds => some (String.mk ds, urljoin_base href)
    | none => none
  else none

/-- The qualifying (id, link) pairs of a document's anchors, in order. -/
def qualPairs (anchors : List String) : List (String × String) :=
  anchors.filterMap qualify

/-- Python dict assignment `d[k] = v`: updating an existing key keeps its
insertion position; a new key is appended. -/
def pyDictInsert (d : List (String × String)) (k v : String) : List (String × String) :=
  if k ∈ d.map Prod.fst then d.map (fun p => if p.1 = k then (k, v) else p)
  else d ++ [(k, v)]

/-- `collect_listing_links` from main.py: fold the qualifying anchors into an
insertion-ordered dict `ids_to_link`, then return its items (as (id, link)
pairs, the model of the `{"id": k, "link": v}` dicts). -/
def collect_listing_links (d : Doc) : List (String × String) :=
  (qualPairs d.anchors).foldl (fun acc p => pyDictInsert acc p.1 p.2) []

/-- First-occurrence de-duplication, excluding members of `seen`. -/
def firstDedupFrom (seen : List String) : List String → List String
  | [] => []
  | a :: l =>
    if a ∈ seen then firstDedupFrom seen l
    else a :: firstDedupFrom (a :: seen) l

/-- Keep the first occurrence of each element. -/
def firstDedup (l : List String) : List String := firstDedupFrom [] l

/-- The value of the last pair with key `i`, if any — the value a Python dict
holds for `i` after inserting `pairs` in order. -/
def lastValueFor (i : String) : List (String × String) → Option String
  | [] => none
  | p :: rest =>
    match lastValueFor i rest with
    | some v => some v
    | none => if p.1 = i then some p.2 else none

/-! ## Seen-Set Store (load_seen / save_seen) -/

/-- JSON whitespace. -/
def isJsonWs (c : Char) : Bool := c == ' ' || c == '\n' || c == '\t' || c == '\r'

/-- Read a JSON string body up to the closing quote.  The model covers the
escape-free strings the store itself writes (listing ids are digit strings);
an escape sequence is treated as a parse failure. -/
def takeStrBody : List Char → Option (List Char × List Char)
  | [] => none
  | c :: rest =>
    if c == '"' then some ([], rest)
    else if c == '\\' then none
    else
      match takeStrBody rest with
      | some (s, r) => some (c :: s, r)
      | none => none

/-- After the first element: `(ws ',' ws string)* ws ']' ws eof`.  Fuel-driven
so that the recursion is structural; the initial fuel (input length + 1)
always suffices because every step consumes at least one character. -/
def jsonArrRest (acc : List String) : Nat → List Char → Option (List String)
  | 0, _ => none
  | fuel + 1, l =>
    match l.dropWhile isJsonWs with
    | ']' :: r => if (r.dropWhile isJsonWs).isEmpty then some acc.reverse else none
    | ',' :: r =>
      match r.dropWhile isJsonWs with
      | '"' :: r2 =>
        match takeStrBody r2 with
        | some (s, rest) => jsonArrRest (String.mk s :: acc) fuel rest
        | none => none
      | _ => none
    | _ => none

/-- `json.load` restricted to the documents the store itself writes: a JSON
array of (escape-free) strings.  Any other content is a parse error, as it is
for the code (a malformed file raises `json.JSONDecodeError`). -/
def jsonLoadStrArr (s : String) : Option (List String) :=
  match s.data.dropWhile isJsonWs with
  | '[' :: r =>
    match r.dropWhile isJsonWs with
    | ']' :: r2 => if (r2.dropWhile isJsonWs).isEmpty then some [] else none
    | '"' :: r2 =>
      match takeStrBody r2 with
      | some (str, rest) => jsonArrRest [String.mk str] (rest.length + 1) rest
      | none => none
    | _ => none
  | _ => none

/-- The uncaught Python exceptions the run can terminate with. -/
inductive PyErr where
  /-- `RuntimeError("Missing BOT_TOKEN or CHAT_ID env vars ...")`. -/
  | missingCreds
  /-- `load_config` failed: config.json missing or unparsable. -/
  | configError
  /-- `json.JSONDecodeError` from `load_seen`. -/
  | jsonDecodeError
  /-- `requests` error from the top-level `fetch_html(SEARCH_URL)`. -/
  | fetchError
  /-- `raise_for_status()` failure inside `tg_send`. -/
  | sendError
deriving DecidableEq, Repr

/-- `load_seen` from main.py, as a function of the persistence file's state
(`none` = .cache/seen.json absent): a missing file yields the empty set, a
parsable file yields `set(json.load(f))`, and a malformed file raises. -/
def load_seen (file : Option String) : Except PyErr PySet :=
  match file with
  | none => .ok []
  | some content =>
    match jsonLoadStrArr content with
    | some l => .ok (pySetOf l)
    | none => .error .jsonDecodeError

/-! ## The run (main), as a pure function of an explicit world -/

/-- The externally observable actions `main` performs, in order.  (The
`time.sleep` pacing calls are not modelled: they observe nothing and change
nothing.) -/
inductive Effect where
  /-- `load_config()` — reading config.json. -/
  | loadConfig
  /-- `load_seen()` — reading .cache/seen.json. -/
  | loadSeen
  /-- `fetch_html(url)` — an HTTP GET. -/
  | httpGet (url : String)
  /-- `tg_send(token, chat_id, text)` — one outbound notification. -/
  | send (text : String)
  /-- `save_seen(s)` — overwriting .cache/seen.json with the sorted ids. -/
  | saveSeen (ids : List String)
deriving DecidableEq, Repr

/-- `save_seen` from main.py: the file receives `sorted(list(seen_set))`. -/
def save_seen (s : PySet) : Effect := .saveSeen (sortStrings s)

/-- Everything outside the process that a run can observe: environment
variables, the two files, and the responses of the HTTP and Telegram
endpoints.  `search_page` is the (parsed) response to `GET SEARCH_URL`;
`item_page` maps an item link to the text content of its page; `send_ok n`
resolves whether the n-th `tg_send` call of the run succeeds. -/
structure World where
  bot_token : Option String
  chat_id : Option String
  debug_env : Option String
  config_file : Option Config
  seen_file : Option String
  search_page : Except Unit Doc
  item_page : String → Except Unit String
  send_ok : Nat → Bool

/-- The per-area item loop of main.py.  `checked` is incremented first; a
fetch or parse exception is caught and `continue`s (note: skipping the
35-cap break check, exactly as the `continue` in the source does); a
successfully parsed item is appended to `hits` when it passes the filters,
after which `checked >= 35` breaks the loop.  Returns (hits, effects). -/
def processItems (w : World) (cfg : Config) (area : AreaCfg) :
    List (String × String) → Nat → List (String × String) × List Effect
  | [], _ => ([], [])
  | it :: rest, checked =>
    let checked := checked + 1
    match w.item_page it.2 with
    | .error _ =>
      let r := processItems w cfg area rest checked
      (r.1, .httpGet it.2 :: r.2)
    | .ok body =>
      match parse_details_from_item_page body with
      | .error _ =>
        let r := processItems w cfg area rest checked
        (r.1, .httpGet it.2 :: r.2)
      | .ok details =>
        let hit := passes_filters details cfg area
        if checked ≥ 35 then
          ((if hit then [it] else []), [.httpGet it.2])
        else
          let r := processItems w cfg area rest checked
          ((if hit then it :: r.1 else r.1), .httpGet it.2 :: r.2)

/-- The final notification loop of main.py: per area with hits, add every
hit's id to the seen set, then send the message (title and links joined by
newlines); a send failure propagates out of `main`, abandoning the rest of
the loop and the save.  Returns (final seen set, effects, completed?). -/
def dispatchAreas (w : World) (seen : PySet) (sc : Nat) :
    List (String × List (String × String)) → PySet × List Effect × Bool
  | [] => (seen, [], true)
  | (title, hits) :: rest =>
    let seen2 := hits.foldl (fun s it => pySetAdd s it.1) seen
    let msg := joinLines (title :: hits.map (fun it => it.2))
    if w.send_ok sc then
      let r := dispatchAreas w seen2 (sc + 1) rest
      (r.1, .send msg :: r.2.1, r.2.2)
    else (seen2, [.send msg], false)

/-- The no-results message of main.py. -/
def noResultsMsg : String :=
  "לא נמצאו דירות שעברו סינון בריצה הזו. אם זה לא הגיוני – נרחיב עוד יותר את הקריטריונים/נשנה מקור נתונים."

/-- The tail of `main` after the debug message: either the no-results message
(and `return`, without saving), or the notification loop followed — only on
full success — by `save_seen`. -/
def mainNotify (w : World) (seen : PySet) (acc : List Effect)
    (results : List (String × List (String × String))) (sc : Nat) :
    List Effect × Option PyErr :=
  if results.isEmpty then
    if w.send_ok sc then (acc ++ [.send noResultsMsg], none)
    else (acc ++ [.send noResultsMsg], some .sendError)
  else
    match dispatchAreas w seen sc results with
    | (finalSeen, des, true) => (acc ++ des ++ [save_seen finalSeen], none)
    | (_, des, false) => (acc ++ des, some .sendError)

/-- `links = collect_listing_links(search_html)[:80]`. -/
def mainLinks (doc : Doc) : List (String × String) :=
  (collect_listing_links doc).take 80

/-- `new_links = [x for x in links if x["id"] not in seen]`. -/
def mainNewLinks (seen : PySet) (doc : Doc) : List (String × String) :=
  (mainLinks doc).filter (fun it => !(seen.contains it.1))

/-- The debug line reporting the total and new link counts. -/
def debugMsg (seen : PySet) (doc : Doc) : String :=
  "Debug: נמצאו " ++ toString (mainLinks doc).length ++ " מודעות בעמוד, מתוכן "
    ++ toString (mainNewLinks seen doc).length ++ " חדשות (לא נראו)."

/-- The area loop: each area's (title, (hits, effects)). -/
def perArea (w : World) (cfg : Config) (seen : PySet) (doc : Doc) :
    List (String × (List (String × String) × List Effect)) :=
  cfg.areas.map (fun a => (a.title, processItems w cfg a (mainNewLinks seen doc) 0))

/-- The item-fetch effects of the whole area loop, in order. -/
def areaEffects (w : World) (cfg : Config) (seen : PySet) (doc : Doc) : List Effect :=
  ((perArea w cfg seen doc).map (fun p => p.2.2)).flatten

/-- `results_by_area`: per area with nonempty hits, (title, hits[:10]). -/
def areaResults (w : World) (cfg : Config) (seen : PySet) (doc : Doc) :
    List (String × List (String × String)) :=
  (perArea w cfg seen doc).filterMap
    (fun p => if p.2.1.isEmpty then none else some (p.1, p.2.1.take 10))

/-- `main` from the search fetch onward: harvest, cap at 80 links, filter
against the seen set, run every area's item loop, then the debug message and
the notification tail. -/
def mainAfterFetch (w : World) (cfg : Config) (seen : PySet) (doc : Doc) :
    List Effect × Option PyErr :=
  let pre : List Effect := [.loadConfig, .loadSeen, .httpGet SEARCH_URL]
  if (w.debug_env.getD "1") == "1" then
    if w.send_ok 0 then
      mainNotify w seen (pre ++ areaEffects w cfg seen doc ++ [.send (debugMsg seen doc)])
        (areaResults w cfg seen doc) 1
    else (pre ++ areaEffects w cfg seen doc ++ [.send (debugMsg seen doc)], some .sendError)
  else mainNotify w seen (pre ++ areaEffects w cfg seen doc) (areaResults w cfg seen doc) 0

/-- `main` from main.py: the credential check comes first and raises before
any other work; then config load, seen-set load, the search fetch, and the
rest of the pipeline.  The result is the list of effects performed, in
order, and the uncaught exception the run terminated with, if any. -/
def mainRun (w : World) : List Effect × Option PyErr :=
  if pyFalsy w.bot_token || pyFalsy w.chat_id then ([], some .missingCreds)
  else
    match w.config_file with
    | none => ([.loadConfig], some .configError)
    | some cfg =>
      match load_seen w.seen_file with
      | .error e => ([.loadConfig, .loadSeen], some e)
      | .ok seen =>
        match w.search_page with
        | .error _ => ([.loadConfig, .loadSeen, .httpGet SEARCH_URL], some .fetchError)
        | .ok doc => mainAfterFetch w cfg seen doc

/-! ## Helper lemmas: Python dict folds and first-occurrence de-duplication -/

theorem lastValueFor_cons (i k v : String) (rest : List (String × String)) :
    lastValueFor i ((k, v) :: rest) =
      match lastValueFor i rest with
      | some u => some u
      | none => if k = i then some v else none := rfl

theorem mem_pyDictInsert {d : List (String × String)} {k v i w : String}
    (h : (i, w) ∈ pyDictInsert d k v) :
    (i = k ∧ w = v) ∨ ((i, w) ∈ d ∧ i ≠ k) := by
  unfold pyDictInsert at h
  by_cases hk : k ∈ d.map Prod.fst
  · rw [if_pos hk] at h
    rw [List.mem_map] at h
    obtain ⟨p, hp, hpe⟩ := h
    by_cases hpk : p.1 = k
    · rw [if_pos hpk, Prod.mk.injEq] at hpe
      exact Or.inl ⟨hpe.1.symm, hpe.2.symm⟩
    · rw [if_neg hpk] at hpe
      subst hpe
      exact Or.inr ⟨hp, hpk⟩
  · rw [if_neg hk] at h
    rcases List.mem_append.1 h with hd | hl
    · refine Or.inr ⟨hd, fun hik => hk ?_⟩
      rw [List.mem_map]
      exact ⟨(i, w), hd, hik⟩
    · rw [List.mem_singleton, Prod.mk.injEq] at hl
      exact Or.inl hl

theorem mem_foldl_pyDictInsert :
    ∀ (pairs d : List (String × String)) (i w : String),
      (i, w) ∈ pairs.foldl (fun acc p => pyDictInsert acc p.1 p.2) d →
      lastValueFor i pairs = some w ∨ (lastValueFor i pairs = none ∧ (i, w) ∈ d)
  | [], _, _, _, h => Or.inr ⟨rfl, h⟩
  | (k, v) :: rest, d, i, w, h => by
    rw [List.foldl_cons] at h
    rcases mem_foldl_pyDictInsert rest (pyDictInsert d k v) i w h with h1 | ⟨h1, h2⟩
    · exact Or.inl (by rw [lastValueFor_cons, h1])
    · rcases mem_pyDictInsert h2 with ⟨hik, hwv⟩ | ⟨hmem, hik⟩
      · subst hik; subst hwv
        refine Or.inl ?_
        rw [lastValueFor_cons, h1]
        exact if_pos rfl
      · refine Or.inr ⟨?_, hmem⟩
        rw [lastValueFor_cons, h1]
        exact if_neg (fun hki : k = i => hik hki.symm)

theorem lastValueFor_mem :
    ∀ (pairs : List (String × String)) (i v : String),
      lastValueFor i pairs = some v → (i, v) ∈ pairs
  | (k, w) :: rest, i, v, h => by
    rw [lastValueFor_cons] at h
    cases hr : lastValueFor i rest with
    | some u =>
      rw [hr] at h
      injection h with h
      exact List.mem_cons_of_mem _ (h ▸ lastValueFor_mem rest i u hr)
    | none =>
      rw [hr] at h
      by_cases hik : k = i
      · rw [if_pos hik] at h
        injection h with h
        subst hik; subst h
        exact List.mem_cons_self _ _
      · rw [if_neg hik] at h
        exact absurd h (by simp)

theorem map_fst_update (k v : String) :
    ∀ (d : List (String × String)),
      (d.map (fun p => if p.1 = k then (k, v) else p)).map Prod.fst = d.map Prod.fst
  | [] => rfl
  | p :: d => by
    simp only [List.map_cons, List.cons.injEq]
    refine ⟨?_, map_fst_update k v d⟩
    by_cases hpk : p.1 = k
    · rw [if_pos hpk, hpk]
    · rw [if_neg hpk]

theorem keys_pyDictInsert (d : List (String × String)) (k v : String) :
    (pyDictInsert d k v).map Prod.fst =
      if k ∈ d.map Prod.fst then d.map Prod.fst else d.map Prod.fst ++ [k] := by
  unfold pyDictInsert
  by_cases hk : k ∈ d.map Prod.fst
  · rw [if_pos hk, if_pos hk, map_fst_update]
  · rw [if_neg hk, if_neg hk, List.map_append]
    rfl

theorem firstDedupFrom_cons (seen : List String) (a : String) (l : List String) :
    firstDedupFrom seen (a :: l) =
      if a ∈ seen then firstDedupFrom seen l else a :: firstDedupFrom (a :: seen) l := rfl

theorem firstDedupFrom_congr :
    ∀ (l : List String) (s1 s2 : List String), (∀ x, x ∈ s1 ↔ x ∈ s2) →
      firstDedupFrom s1 l = firstDedupFrom s2 l
  | [], _, _, _ => rfl
  | a :: l, s1, s2, h => by
    rw [firstDedupFrom_cons, firstDedupFrom_cons]
    by_cases ha : a ∈ s1
    · rw [if_pos ha, if_pos ((h a).1 ha), firstDedupFrom_congr l s1 s2 h]
    · rw [if_neg ha, if_neg (fun hb => ha ((h a).2 hb))]
      rw [firstDedupFrom_congr l (a :: s1) (a :: s2)
        (fun x => by simp only [List.mem_cons]; rw [h x])]

theorem keys_foldl_pyDictInsert :
    ∀ (pairs d : List (String × String)),
      (pairs.foldl (fun acc p => pyDictInsert acc p.1 p.2) d).map Prod.fst =
        d.map Prod.fst ++ firstDedupFrom (d.map Prod.fst) (pairs.map Prod.fst)
  | [], d => by simp [firstDedupFrom]
  | (k, v) :: rest, d => by
    rw [List.foldl_cons, keys_foldl_pyDictInsert rest (pyDictInsert d k v),
      keys_pyDictInsert, List.map_cons, firstDedupFrom_cons]
    by_cases hk : k ∈ d.map Prod.fst
    · rw [if_pos hk, if_pos hk]
    · rw [if_neg hk, if_neg hk, List.append_assoc, List.singleton_append]
      rw [firstDedupFrom_congr (rest.map Prod.fst) (d.map Prod.fst ++ [k]) (k :: d.map Prod.fst)
        (fun x => by simp only [List.mem_append, List.mem_singleton, List.mem_cons]; tauto)]

theorem mem_firstDedupFrom_not_seen :
    ∀ (l seen : List String) (x : String), x ∈ firstDedupFrom seen l → x ∉ seen
  | a :: l, seen, x, h => by
    rw [firstDedupFrom_cons] at h
    by_cases ha : a ∈ seen
    · rw [if_pos ha] at h
      exact mem_firstDedupFrom_not_seen l seen x h
    · rw [if_neg ha] at h
      rcases List.mem_cons.1 h with rfl | h2
      · exact ha
      · intro hx
        exact mem_firstDedupFrom_not_seen l (a :: seen) x h2 (List.mem_cons_of_mem a hx)

theorem firstDedupFrom_nodup :
    ∀ (l seen : List String), (firstDedupFrom seen l).Nodup
  | [], _ => List.nodup_nil
  | a :: l, seen => by
    rw [firstDedupFrom_cons]
    by_cases ha : a ∈ seen
    · rw [if_pos ha]
      exact firstDedupFrom_nodup l seen
    · rw [if_neg ha]
      refine List.nodup_cons.2 ⟨?_, firstDedupFrom_nodup l (a :: seen)⟩
      intro hmem
      exact mem_firstDedupFrom_not_seen l (a :: seen) a hmem (List.mem_cons_self _ _)

theorem qualify_link {href i v : String} (h : qualify href = some (i, v)) :
    v = urljoin_base href := by
  unfold qualify at h
  by_cases hp : subAt itemPathChars href.data
  · rw [if_pos hp] at h
    cases hi : itemIdSearch href.data with
    | some ds =>
      rw [hi] at h
      injection h with h
      rw [Prod.mk.injEq] at h
      exact h.2.symm
    | none => rw [hi] at h; exact absurd h (by simp)
  · rw [if_neg hp] at h
    exact absurd h (by simp)

/-! ## Claims about the harvester (C1, C3, C7, C10) -/

/-- C1 (counterexample): two hrefs that resolve to the same item id "123" do
NOT normalize to the same canonical URL — the harvester keeps each href
verbatim (base-joined), so the query string of the first and the fragment of
the second survive into the canonical form.  This refutes "the canonical URL
is a pure function of `stable_id`, with all query parameters and fragments
stripped". -/
theorem canonical_not_id_function_cex :
    collect_listing_links ⟨["/realestate/item/123?a=1"], ""⟩ =
      [("123", "https://www.yad2.co.il/realestate/item/123?a=1")] ∧
    collect_listing_links ⟨["/realestate/item/123#x"], ""⟩ =
      [("123", "https://www.yad2.co.il/realestate/item/123#x")] ∧
    "https://www.yad2.co.il/realestate/item/123?a=1" ≠
      "https://www.yad2.co.il/realestate/item/123#x" ∧
    strContains "https://www.yad2.co.il/realestate/item/123?a=1" "?" = true := by
  decide

/-- Validation of the `urljoin` model against CPython 3.11 outputs for the
href shapes the harvester can feed it: query/fragment preservation,
dot-segment resolution (including stack underflow and trailing-dot cases),
tab/CR/LF removal, params handling, and dropped empty separators. -/
theorem urljoin_base_matches_cpython :
    urljoin_base "/realestate/item/123?a=1" =
      "https://www.yad2.co.il/realestate/item/123?a=1" ∧
    urljoin_base "/realestate/item/123#x" =
      "https://www.yad2.co.il/realestate/item/123#x" ∧
    urljoin_base "/realestate/item/123/../456" =
      "https://www.yad2.co.il/realestate/item/456" ∧
    urljoin_base "/realestate/item/../realestate/item/5" =
      "https://www.yad2.co.il/realestate/realestate/item/5" ∧
    urljoin_base "/realestate/item/123/.." =
      "https://www.yad2.co.il/realestate/item/" ∧
    urljoin_base "/realestate/item/123/." =
      "https://www.yad2.co.il/realestate/item/123/" ∧
    urljoin_base "/realestate/item/./123" =
      "https://www.yad2.co.il/realestate/item/123" ∧
    urljoin_base "/realestate/item/123/../../../.." =
      "https://www.yad2.co.il/" ∧
    urljoin_base "/realestate/item/123/../../../../x" =
      "https://www.yad2.co.il/x" ∧
    urljoin_base "/realestate/item/1\t23" =
      "https://www.yad2.co.il/realestate/item/123" ∧
    urljoin_base "/realestate/item/123?" =
      "https://www.yad2.co.il/realestate/item/123" ∧
    urljoin_base "/realestate/item/123;p=1?q=2#f" =
      "https://www.yad2.co.il/realestate/item/123;p=1?q=2#f" ∧
    urljoin_base "/realestate/item/123/..;x" =
      "https://www.yad2.co.il/realestate/item/;x" ∧
    urljoin_base "/realestate/item/12;a/34" =
      "https://www.yad2.co.il/realestate/item/12;a/34" ∧
    urljoin_base "/realestate/item/123#b?a" =
      "https://www.yad2.co.il/realestate/item/123#b?a" ∧
    urljoin_base "/realestate/item/123?x=/../y" =
      "https://www.yad2.co.il/realestate/item/123?x=/../y" ∧
    urljoin_base "/realestate/item/..." =
      "https://www.yad2.co.il/realestate/item/..." := by decide

/-- C1 (amended): every candidate's canonical URL is `urljoin(BASE, href)` of
a source href — the href's query string and fragment are preserved, not
stripped (only RFC 3986 dot segments of the path are resolved) — so the
canonical URL is a function of the full href rather than of the stable id
alone; deduplication nevertheless keys on the stable id only (see the
harvester claims). -/
theorem canonical_url_is_urljoin_of_href (d : Doc) (i v : String)
    (h : (i, v) ∈ collect_listing_links d) :
    ∃ href, href ∈ d.anchors ∧ qualify href = some (i, v) ∧ v = urljoin_base href := by
  have h1 : lastValueFor i (qualPairs d.anchors) = some v := by
    rcases mem_foldl_pyDictInsert (qualPairs d.anchors) [] i v h with h1 | ⟨_, h2⟩
    · exact h1
    · exact absurd h2 (List.not_mem_nil _)
  have h2 : (i, v) ∈ qualPairs d.anchors := lastValueFor_mem _ _ _ h1
  rw [qualPairs, List.mem_filterMap] at h2
  obtain ⟨href, hmem, hq⟩ := h2
  exact ⟨href, hmem, hq, qualify_link hq⟩

/-- Witness for the amended C1 at a concrete document. -/
theorem canonical_url_is_urljoin_of_href_witness :
    ∃ href, href ∈ (⟨["/realestate/item/55?q=1"], ""⟩ : Doc).anchors ∧
      qualify href = some ("55", "https://www.yad2.co.il/realestate/item/55?q=1") ∧
      "https://www.yad2.co.il/realestate/item/55?q=1" = urljoin_base href :=
  canonical_url_is_urljoin_of_href ⟨["/realestate/item/55?q=1"], ""⟩ "55"
    "https://www.yad2.co.il/realestate/item/55?q=1" (by decide)

/-- C3 (counterexample): a document with zero qualifying anchors whose raw
text does contain an item-path occurrence (inside a script block, with a
derivable id) is NOT harvested: there is no fallback scan. -/
theorem fallback_missing_cex :
    collect_listing_links ⟨[], "<script>\"/realestate/item/123456\"</script>"⟩ = [] ∧
    itemIdSearch "<script>\"/realestate/item/123456\"</script>".data = some "123456".data := by
  decide

/-- C3 (amended): the harvester is anchor-only — its output never depends on
the document's raw text, and a document with zero qualifying anchors yields
zero candidates no matter what the raw text contains. -/
theorem collect_anchors_only :
    (∀ d : Doc, collect_listing_links d = collect_listing_links ⟨d.anchors, ""⟩) ∧
    (∀ raw : String, collect_listing_links ⟨[], raw⟩ = []) :=
  ⟨fun _ => rfl, fun _ => rfl⟩

/-- C7: the harvester's output has pairwise-distinct ids, its id sequence is
the first-occurrence de-duplication of the qualifying anchors' ids in
document order, and (being a pure function) harvesting the same document
twice yields exactly the same sequence. -/
theorem collect_distinct_first_order_idempotent (d : Doc) :
    ((collect_listing_links d).map Prod.fst).Nodup ∧
    (collect_listing_links d).map Prod.fst =
      firstDedup ((qualPairs d.anchors).map Prod.fst) ∧
    collect_listing_links d = collect_listing_links d := by
  have hkeys : (collect_listing_links d).map Prod.fst =
      firstDedup ((qualPairs d.anchors).map Prod.fst) := by
    unfold collect_listing_links firstDedup
    rw [keys_foldl_pyDictInsert (qualPairs d.anchors) []]
    rfl
  refine ⟨?_, hkeys, rfl⟩
  rw [hkeys]
  exact firstDedupFrom_nodup _ []

/-- C10: a candidate's link is the one built from the LAST qualifying href
with that id in document order (Python dict assignment overwrites the value),
while the id sequence is ordered by FIRST occurrence (assignment keeps the
original insertion position). -/
theorem collect_last_href_first_position (d : Doc) (i v : String)
    (h : (i, v) ∈ collect_listing_links d) :
    lastValueFor i (qualPairs d.anchors) = some v ∧
    (collect_listing_links d).map Prod.fst =
      firstDedup ((qualPairs d.anchors).map Prod.fst) := by
  constructor
  · rcases mem_foldl_pyDictInsert (qualPairs d.anchors) [] i v h with h1 | ⟨_, h2⟩
    · exact h1
    · exact absurd h2 (List.not_mem_nil _)
  · unfold collect_listing_links firstDedup
    rw [keys_foldl_pyDictInsert (qualPairs d.anchors) []]
    rfl

/-- Witness for C10: id "77" occurs twice with different hrefs; the returned
link comes from the last href while "77" precedes "88" in the output. -/
theorem collect_last_href_first_position_witness :
    lastValueFor "77"
        (qualPairs ["/x", "/realestate/item/77?a", "/realestate/item/88",
          "/realestate/item/77#b"]) =
      some "https://www.yad2.co.il/realestate/item/77#b" ∧
    (collect_listing_links ⟨["/x", "/realestate/item/77?a", "/realestate/item/88",
        "/realestate/item/77#b"], ""⟩).map Prod.fst =
      firstDedup ((qualPairs ["/x", "/realestate/item/77?a", "/realestate/item/88",
        "/realestate/item/77#b"]).map Prod.fst) :=
  collect_last_href_first_position
    ⟨["/x", "/realestate/item/77?a", "/realestate/item/88", "/realestate/item/77#b"], ""⟩
    "77" "https://www.yad2.co.il/realestate/item/77#b" (by decide)

/-! ## Claims about the seen-set store (C2) -/

/-- C2 (counterexample): loading a malformed persistence file does NOT return
the empty set — it raises `json.JSONDecodeError` (there is no try/except in
`load_seen`). -/
theorem load_seen_corrupt_raises_cex :
    load_seen (some "garbage") = .error .jsonDecodeError := rfl

/-- C2 (amended): loading returns the empty set when the file is missing and
the parsed member set when the file is well-formed, but a malformed file
raises a parse error instead of returning. -/
theorem load_seen_amended :
    load_seen none = .ok [] ∧
    (∀ c l, jsonLoadStrArr c = some l → load_seen (some c) = .ok (pySetOf l)) ∧
    (∀ c, jsonLoadStrArr c = none → load_seen (some c) = .error .jsonDecodeError) := by
  refine ⟨rfl, ?_, ?_⟩
  · intro c l h
    simp only [load_seen, h]
  · intro c h
    simp only [load_seen, h]

/-- Witness for the amended C2 on a concrete well-formed file. -/
theorem load_seen_amended_witness :
    load_seen (some "[\"111\", \"222\"]") = .ok (pySetOf ["111", "222"]) :=
  load_seen_amended.2.1 "[\"111\", \"222\"]" ["111", "222"] (by decide)

/-! ## Claims about the filter engine (C4, C5) -/

/-- C4: a candidate with absent price, rooms and floor and an empty text blob
passes the filter under every configuration: absent numeric fields impose no
constraint and the neighborhood keyword check is skipped on empty text. -/
theorem passes_filters_all_absent (cfg : Config) (area : AreaCfg) :
    passes_filters ⟨none, none, none, ""⟩ cfg area = true := by
  simp [passes_filters]

/-- C5 (counterexample): a configured exclusion keyword ("תיווך") matching
the candidate's text does NOT make the filter reject — `passes_filters`
contains no exclusion-keyword check at all. -/
theorem exclusion_ignored_cex :
    passes_filters ⟨none, none, none, "דירה יפה תיווך בלעדי"⟩
      ⟨0, 100000, 0, 10, 0, []⟩ ⟨"מרכז", [], ["תיווך"]⟩ = true ∧
    strContains "דירה יפה תיווך בלעדי" "תיווך" = true := by decide

/-- C5 (amended): the filter predicate performs no exclusion-keyword check:
its result is entirely independent of the configured `exclude_keywords`. -/
theorem passes_filters_ignores_exclude_keywords (d : Details) (cfg : Config)
    (a : AreaCfg) (l l' : List String) :
    passes_filters d cfg { a with exclude_keywords := l } =
      passes_filters d cfg { a with exclude_keywords := l' } := rfl

/-! ## Claims about the field extractor (C6) -/

/-- The scenario text of the spec's field-extraction example. -/
def scenarioText : String := "2.5 חדרים קומה 3 מחיר 6,800"

/-- C6 (counterexample): on the scenario text the extractor's price is `None`,
not 6800 — the only price pattern is `([\d,]+)\s*₪`, the text carries no
shekel sign, and no labeled-price form or ≥4-digit fallback exists. -/
theorem scenario_price_cex :
    (parse_details_from_item_page scenarioText).toOption.map Details.price =
      some none ∧
    some (none : Option Int) ≠ some (some (6800 : Int)) := by
  exact ⟨rfl, by decide⟩

/-- C6 (amended): on the scenario text the extractor yields rooms = 2.5 and
floor = 3, but price = none (the price pattern requires a trailing ₪). -/
theorem scenario_extraction :
    parse_details_from_item_page scenarioText =
      .ok ⟨none, some ((5 : Rat) / 2), some 3, scenarioText⟩ := by
  have hval : parseFloat ['2', '.', '5'] = (5 : Rat) / 2 := by
    show ((digitsToNat ['2'] : Nat) : Rat) +
        ((digitsToNat ['5'] : Nat) : Rat) / (10 : Rat) ^ (['5'] : List Char).length =
      (5 : Rat) / 2
    show ((2 : Nat) : Rat) + ((5 : Nat) : Rat) / (10 : Rat) ^ (1 : Nat) = (5 : Rat) / 2
    norm_num
  have hstep : parse_details_from_item_page scenarioText =
      .ok ⟨none, some (parseFloat ['2', '.', '5']), some 3, scenarioText⟩ := rfl
  rw [hstep, hval]



/-! ## Helper lemmas about the run's effect trace -/

theorem processItems_no_save (w : World) (cfg : Config) (area : AreaCfg) :
    ∀ (items : List (String × String)) (checked : Nat) (l : List String),
      Effect.saveSeen l ∉ (processItems w cfg area items checked).2
  | [], checked, l => by
    intro h
    simp [processItems] at h
  | it :: rest, checked, l => by
    intro h
    simp only [processItems] at h
    cases hw : w.item_page it.2 with
    | error e =>
      rw [hw] at h
      simp only [List.mem_cons] at h
      rcases h with h | h
      · exact Effect.noConfusion h
      · exact processItems_no_save w cfg area rest (checked + 1) l h
    | ok body =>
      rw [hw] at h
      dsimp only at h
      cases hp : parse_details_from_item_page body with
      | error e =>
        rw [hp] at h
        simp only [List.mem_cons] at h
        rcases h with h | h
        · exact Effect.noConfusion h
        · exact processItems_no_save w cfg area rest (checked + 1) l h
      | ok details =>
        rw [hp] at h
        dsimp only at h
        by_cases hc : checked + 1 ≥ 35
        · rw [if_pos hc] at h
          simp only [List.mem_singleton] at h
          exact Effect.noConfusion h
        · rw [if_neg hc] at h
          simp only [List.mem_cons] at h
          rcases h with h | h
          · exact Effect.noConfusion h
          · exact processItems_no_save w cfg area rest (checked + 1) l h

theorem areaEffects_no_save (w : World) (cfg : Config) (seen : PySet) (doc : Doc)
    (l : List String) : Effect.saveSeen l ∉ areaEffects w cfg seen doc := by
  intro h
  unfold areaEffects at h
  rw [List.mem_flatten] at h
  obtain ⟨es, hes, hmem⟩ := h
  rw [List.mem_map] at hes
  obtain ⟨p, hp, rfl⟩ := hes
  unfold perArea at hp
  rw [List.mem_map] at hp
  obtain ⟨a, _, rfl⟩ := hp
  exact processItems_no_save w cfg a _ 0 l hmem

theorem dispatchAreas_no_save (w : World) :
    ∀ (rs : List (String × List (String × String))) (seen : PySet) (sc : Nat)
      (l : List String), Effect.saveSeen l ∉ (dispatchAreas w seen sc rs).2.1
  | [], seen, sc, l => by
    intro h
    simp [dispatchAreas] at h
  | (title, hits) :: rest, seen, sc, l => by
    intro h
    simp only [dispatchAreas] at h
    by_cases hs : w.send_ok sc = true
    · rw [if_pos hs] at h
      simp only [List.mem_cons] at h
      rcases h with h | h
      · exact Effect.noConfusion h
      · exact dispatchAreas_no_save w rest _ (sc + 1) l h
    · rw [if_neg hs] at h
      simp only [List.mem_singleton] at h
      exact Effect.noConfusion h

theorem mem_pySetAdd {s : PySet} {x : String} (y : String) (h : x ∈ s) :
    x ∈ pySetAdd s y := by
  unfold pySetAdd
  by_cases hc : s.contains y = true
  · rw [if_pos hc]
    exact h
  · rw [if_neg hc]
    exact List.mem_append_left _ h

theorem mem_foldl_pySetAdd :
    ∀ (hits : List (String × String)) (s : PySet) (x : String), x ∈ s →
      x ∈ hits.foldl (fun s it => pySetAdd s it.1) s
  | [], _, _, h => h
  | it :: rest, s, x, h => mem_foldl_pySetAdd rest (pySetAdd s it.1) x (mem_pySetAdd it.1 h)

theorem dispatchAreas_seen_mono (w : World) :
    ∀ (rs : List (String × List (String × String))) (seen : PySet) (sc : Nat)
      (x : String), x ∈ seen → x ∈ (dispatchAreas w seen sc rs).1
  | [], _, _, _, h => h
  | (title, hits) :: rest, seen, sc, x, h => by
    simp only [dispatchAreas]
    by_cases hs : w.send_ok sc = true
    · rw [if_pos hs]
      exact dispatchAreas_seen_mono w rest _ (sc + 1) x (mem_foldl_pySetAdd hits seen x h)
    · rw [if_neg hs]
      exact mem_foldl_pySetAdd hits seen x h

theorem mem_insertSorted_of_mem {x : String} (y : String) :
    ∀ (l : List String), x ∈ l → x ∈ insertSorted y l
  | z :: zs, h => by
    unfold insertSorted
    by_cases hc : pyStrLt z y = true
    · rw [if_pos hc]
      rcases List.mem_cons.1 h with rfl | h2
      · exact List.mem_cons_self _ _
      · exact List.mem_cons_of_mem _ (mem_insertSorted_of_mem y zs h2)
    · rw [if_neg hc]
      exact List.mem_cons_of_mem _ h

theorem self_mem_insertSorted (x : String) :
    ∀ (l : List String), x ∈ insertSorted x l
  | [] => List.mem_cons_self _ _
  | z :: zs => by
    unfold insertSorted
    by_cases hc : pyStrLt z x = true
    · rw [if_pos hc]
      exact List.mem_cons_of_mem _ (self_mem_insertSorted x zs)
    · rw [if_neg hc]
      exact List.mem_cons_self _ _

theorem mem_sortStrings {x : String} :
    ∀ (l : List String), x ∈ l → x ∈ sortStrings l
  | a :: rest, h => by
    rcases List.mem_cons.1 h with rfl | h2
    · exact self_mem_insertSorted x (sortStrings rest)
    · exact mem_insertSorted_of_mem a (sortStrings rest) (mem_sortStrings rest h2)

theorem mainNotify_save_mono (w : World) (seen : PySet) (acc : List Effect)
    (results : List (String × List (String × String))) (sc : Nat) (l : List String)
    (hacc : Effect.saveSeen l ∉ acc)
    (h : Effect.saveSeen l ∈ (mainNotify w seen acc results sc).1) :
    ∀ x ∈ seen, x ∈ l := by
  unfold mainNotify at h
  by_cases hres : results.isEmpty = true
  · rw [if_pos hres] at h
    by_cases hs : w.send_ok sc = true
    · rw [if_pos hs] at h
      rcases List.mem_append.1 h with h | h
      · exact absurd h hacc
      · rw [List.mem_singleton] at h
        exact absurd h (by simp)
    · rw [if_neg hs] at h
      rcases List.mem_append.1 h with h | h
      · exact absurd h hacc
      · rw [List.mem_singleton] at h
        exact absurd h (by simp)
  · rw [if_neg hres] at h
    rcases hd : dispatchAreas w seen sc results with ⟨fs, des, ok⟩
    rw [hd] at h
    cases ok with
    | false =>
      simp only at h
      rcases List.mem_append.1 h with h | h
      · exact absurd h hacc
      · have hns := dispatchAreas_no_save w results seen sc l
        rw [hd] at hns
        exact absurd h hns
    | true =>
      simp only at h
      rcases List.mem_append.1 h with h | h
      · rcases List.mem_append.1 h with h | h
        · exact absurd h hacc
        · have hns := dispatchAreas_no_save w results seen sc l
          rw [hd] at hns
          exact absurd h hns
      · rw [List.mem_singleton] at h
        unfold save_seen at h
        injection h with h
        intro x hx
        rw [h]
        refine mem_sortStrings fs ?_
        have hm := dispatchAreas_seen_mono w results seen sc x hx
        rw [hd] at hm
        exact hm

/-! ## Claims about the run (C8, C9) -/

/-- A small concrete configuration used by the concrete worlds below. -/
def exampleConfig : Config := ⟨0, 100000, 0, 10, 0, [⟨"מרכז", [], []⟩]⟩

/-- A world with both credentials present whose search-page fetch fails. -/
def fetchFailWorld : World :=
  ⟨some "token", some "chat", some "0", some exampleConfig, none, .error (),
   fun _ => .error (), fun _ => true⟩

/-- A world with the bot token missing. -/
def noTokenWorld : World :=
  ⟨none, some "chat", some "0", some exampleConfig, none, .error (),
   fun _ => .error (), fun _ => true⟩

/-- A world whose run completes: one previously seen id "111" in the
persistence file, one new listing "222" on the search page whose item page
passes the filters, and a transport that always delivers. -/
def runWorld : World :=
  ⟨some "token", some "chat", some "0", some exampleConfig, some "[\"111\"]",
   .ok ⟨["/realestate/item/222"], ""⟩, fun _ => .ok "קומה 2 5,500 ₪", fun _ => true⟩

/-- C8 (counterexample): missing credentials are NOT the only unconditionally
fatal condition — in a world with both credentials present, a failing search
fetch also terminates the run with an uncaught error (after the config and
seen-set loads and the attempted GET). -/
theorem creds_not_only_fatal_cex :
    pyFalsy fetchFailWorld.bot_token = false ∧
    pyFalsy fetchFailWorld.chat_id = false ∧
    mainRun fetchFailWorld =
      ([.loadConfig, .loadSeen, .httpGet SEARCH_URL], some .fetchError) ∧
    PyErr.fetchError ≠ PyErr.missingCreds := by decide

/-- C8 (amended): a missing bot token or chat id raises before any other work
(the effect trace is empty); however it is not the only fatal condition —
a config-load failure, a corrupt seen file, a search-fetch failure or a send
failure also abort the run uncaught, as the concrete fetch-failure world
shows. -/
theorem missing_creds_raise_first :
    (∀ w : World, (pyFalsy w.bot_token || pyFalsy w.chat_id) = true →
      mainRun w = ([], some .missingCreds)) ∧
    mainRun fetchFailWorld =
      ([.loadConfig, .loadSeen, .httpGet SEARCH_URL], some .fetchError) := by
  refine ⟨?_, by decide⟩
  intro w h
  unfold mainRun
  rw [if_pos h]

/-- Witness for the amended C8: a concrete world with no token raises
immediately with an empty effect trace. -/
theorem missing_creds_raise_first_witness :
    mainRun noTokenWorld = ([], some .missingCreds) :=
  missing_creds_raise_first.1 noTokenWorld (by decide)

/-- C9: the in-memory seen set only grows — whenever the run performs its
final persistence step, every identifier loaded at start is in the saved
list. -/
theorem seen_set_monotone (w : World) (s0 : PySet) (l : List String)
    (hload : load_seen w.seen_file = .ok s0)
    (hsave : Effect.saveSeen l ∈ (mainRun w).1) :
    ∀ x ∈ s0, x ∈ l := by
  unfold mainRun at hsave
  by_cases hcred : (pyFalsy w.bot_token || pyFalsy w.chat_id) = true
  · rw [if_pos hcred] at hsave
    exact absurd hsave (List.not_mem_nil _)
  · rw [if_neg hcred] at hsave
    cases hc : w.config_file with
    | none =>
      rw [hc] at hsave
      simp at hsave
    | some cfg =>
      rw [hc] at hsave
      dsimp only at hsave
      rw [hload] at hsave
      dsimp only at hsave
      cases hs : w.search_page with
      | error e =>
        rw [hs] at hsave
        simp at hsave
      | ok doc =>
        rw [hs] at hsave
        dsimp only at hsave
        unfold mainAfterFetch at hsave
        by_cases hdbg : ((w.debug_env.getD "1") == "1") = true
        · rw [if_pos hdbg] at hsave
          by_cases hsend : w.send_ok 0 = true
          · rw [if_pos hsend] at hsave
            refine mainNotify_save_mono w s0 _ _ 1 l ?_ hsave
            intro hmem
            rcases List.mem_append.1 hmem with hmem | hmem
            · rcases List.mem_append.1 hmem with hmem | hmem
              · simp at hmem
              · exact areaEffects_no_save w cfg s0 doc l hmem
            · rw [List.mem_singleton] at hmem
              exact Effect.noConfusion hmem
          · rw [if_neg hsend] at hsave
            dsimp only at hsave
            rcases List.mem_append.1 hsave with hmem | hmem
            · rcases List.mem_append.1 hmem with hmem | hmem
              · simp at hmem
              · exact absurd hmem (areaEffects_no_save w cfg s0 doc l)
            · rw [List.mem_singleton] at hmem
              exact Effect.noConfusion hmem
        · rw [if_neg hdbg] at hsave
          refine mainNotify_save_mono w s0 _ _ 0 l ?_ hsave
          intro hmem
          rcases List.mem_append.1 hmem with hmem | hmem
          · simp at hmem
          · exact areaEffects_no_save w cfg s0 doc l hmem

/-- Witness for C9: the completing run world loads {"111"}, dispatches the
new listing "222", and saves exactly ["111", "222"], a superset of the
loaded set. -/
theorem seen_set_monotone_witness :
    load_seen runWorld.seen_file = .ok ["111"] ∧
    Effect.saveSeen ["111", "222"] ∈ (mainRun runWorld).1 ∧
    ∀ x ∈ (["111"] : PySet), x ∈ (["111", "222"] : List String) :=
  ⟨rfl, by decide,
   seen_set_monotone runWorld ["111"] ["111", "222"] rfl (by decide)⟩

end Yad2
